import Mathlib

set_option maxRecDepth 100000

/-!
Verification of the CloudNotifiarr web-push core: the base64url codec,
the RFC 8291/8188 payload encryptor, the RFC 8292 (VAPID) token builder,
and the fan-out delivery dispatcher, shallowly embedded from the
TypeScript source (src/encryption.ts, src/push.ts).  Bytes are modelled
as `List Nat` with values below 256; the Web Crypto primitives, which
are not part of the repository, are abstracted as a structure of
functions together with the algebraic laws the platform guarantees.
-/

/-- Index of a character in the standard base64 alphabet, `none` for any
character outside it (mirrors the alphabet accepted by `atob`). -/
def b64Index (c : Char) : Option Nat :=
  if 'A' ≤ c ∧ c ≤ 'Z' then some (c.toNat - 65)
  else if 'a' ≤ c ∧ c ≤ 'z' then some (c.toNat - 97 + 26)
  else if '0' ≤ c ∧ c ≤ '9' then some (c.toNat - 48 + 52)
  else if c = '+' then some 62
  else if c = '/' then some 63
  else none

/-- Decode a list of base64 sextets into bytes, discarding leftover bits of a
trailing 2- or 3-sextet group, as forgiving-base64 does.  A trailing group of
one sextet cannot occur (callers reject length ≡ 1 mod 4). -/
def sextetsToBytes : List Nat → List Nat
  | a :: b :: c :: d :: rest =>
      (a * 4 + b / 16) :: ((b % 16) * 16 + c / 4) :: ((c % 4) * 64 + d) ::
        sextetsToBytes rest
  | [a, b, c] => [a * 4 + b / 16, (b % 16) * 16 + c / 4]
  | [a, b] => [a * 4 + b / 16]
  | _ => []

/-- Remove up to two trailing padding characters, as forgiving-base64 does
when the input length is a multiple of four. -/
def dropTrailingEq (cs : List Char) : List Char :=
  match cs.reverse with
  | '=' :: '=' :: rest => rest.reverse
  | '=' :: rest => rest.reverse
  | _ => cs

/-- The browser `atob` (forgiving-base64 decode, HTML standard), as invoked by
`base64UrlToArrayBuffer`: strips at most two trailing `=` when the length is a
multiple of 4, rejects length ≡ 1 mod 4 and any character outside the base64
alphabet, and returns the decoded bytes.  (ASCII-whitespace stripping is
irrelevant for key material and omitted.) -/
def atob (s : String) : Option (List Nat) :=
  let cs := s.data
  let cs := if cs.length % 4 = 0 then dropTrailingEq cs else cs
  if cs.length % 4 = 1 then none
  else
    match cs.mapM b64Index with
    | none => none
    | some ds => some (sextetsToBytes ds)

/-- Base64 URL to standard Base64 (source: `base64UrlToBase64`): adds `=`
padding computed from the length and swaps `-`/`_` for `+`/`/`. -/
def base64UrlToBase64 (base64Url : String) : String :=
  let padding := List.replicate ((4 - base64Url.length % 4) % 4) '='
  ⟨(base64Url.data.map fun c =>
      if c = '-' then '+' else if c = '_' then '/' else c) ++ padding⟩

/-- Base64 URL to byte list (source: `base64UrlToArrayBuffer`); `none` models
the `InvalidCharacterError` thrown by `atob` on malformed input. -/
def base64UrlToArrayBuffer (base64Url : String) : Option (List Nat) :=
  atob (base64UrlToBase64 base64Url)

/-- Character of a base64 sextet value (inverse alphabet, used by `btoa`). -/
def b64Char (n : Nat) : Char :=
  if n < 26 then Char.ofNat (65 + n)
  else if n < 52 then Char.ofNat (97 + (n - 26))
  else if n < 62 then Char.ofNat (48 + (n - 52))
  else if n = 62 then '+'
  else '/'

/-- Encode bytes as base64 characters with `=` padding (the byte-level core
of the browser `btoa`). -/
def bytesToB64Chars : List Nat → List Char
  | b1 :: b2 :: b3 :: rest =>
      b64Char (b1 / 4) :: b64Char ((b1 % 4) * 16 + b2 / 16) ::
        b64Char ((b2 % 16) * 4 + b3 / 64) :: b64Char (b3 % 64) ::
        bytesToB64Chars rest
  | [b1, b2] =>
      [b64Char (b1 / 4), b64Char ((b1 % 4) * 16 + b2 / 16),
        b64Char ((b2 % 16) * 4), '=']
  | [b1] => [b64Char (b1 / 4), b64Char ((b1 % 4) * 16), '=', '=']
  | [] => []

/-- The browser `btoa` on a latin1 string, as invoked by `base64UrlEncode`:
fails (throws) when a character is above U+00FF. -/
def btoa (s : String) : Option String :=
  if s.data.all fun c => c.toNat < 256 then
    some ⟨bytesToB64Chars (s.data.map Char.toNat)⟩
  else none

/-- Swap a standard-base64 character to its base64url counterpart. -/
def toUrlChar (c : Char) : Char :=
  if c = '+' then '-' else if c = '/' then '_' else c

/-- Base64 URL encoding (source: `base64UrlEncode`): `btoa` then swap
`+`/`/` for `-`/`_` and strip `=`. -/
def base64UrlEncode (str : String) : Option String :=
  (btoa str).map fun b => ⟨(b.data.filter fun c => c ≠ '=').map toUrlChar⟩

/-- Byte list to Base64 URL (source: `arrayBufferToBase64Url`); the bytes of
an `ArrayBuffer` are always below 256, so this is total. -/
def arrayBufferToBase64Url (buffer : List Nat) : String :=
  ⟨((bytesToB64Chars buffer).filter fun c => c ≠ '=').map toUrlChar⟩

/-- UTF-8 encoding of one character (what `TextEncoder.encode` does). -/
def utf8EncodeChar (c : Char) : List Nat :=
  let n := c.toNat
  if n < 128 then [n]
  else if n < 2048 then [192 + n / 64, 128 + n % 64]
  else if n < 65536 then [224 + n / 4096, 128 + (n / 64) % 64, 128 + n % 64]
  else [240 + n / 262144, 128 + (n / 4096) % 64, 128 + (n / 64) % 64,
    128 + n % 64]

/-- UTF-8 encoding of a string (what `TextEncoder.encode` does). -/
def utf8Bytes (s : String) : List Nat :=
  (s.data.map utf8EncodeChar).flatten

/-- A browser push subscription (source: `PushSubscription` in types.ts). -/
structure PushKeys where
  p256dh : String
  auth : String

/-- A browser push subscription (source: `PushSubscription` in types.ts). -/
structure PushSubscription where
  endpoint : String
  expirationTime : Option Int
  keys : PushKeys

/-- The Web Crypto primitives used by `encryptPayload`, which live in the
platform rather than in the repository, abstracted as functions together
with the algebraic laws the platform guarantees: `pubBytes` is the raw
(uncompressed, 65-byte, `0x04`-led) export of a key pair's public key,
`importPoint` tells whether `importKey("raw", ...)` accepts the bytes as a
P-256 point, `ecdh` is `deriveBits` of the shared secret against another
party's raw public bytes (commutative, 256 bits), `hkdf` is HKDF-SHA256
`deriveBits` (any salt length, output of the requested length), and
`aesGcmEncrypt`/`aesGcmDecrypt` are AES-GCM with a 16-byte tag and no
additional authenticated data. -/
structure WebCryptoPrims where
  Priv : Type
  pubBytes : Priv → List Nat
  importPoint : List Nat → Bool
  ecdh : Priv → List Nat → List Nat
  hkdf : List Nat → List Nat → List Nat → Nat → List Nat
  aesGcmEncrypt : List Nat → List Nat → List Nat → List Nat
  aesGcmDecrypt : List Nat → List Nat → List Nat → Option (List Nat)
  pubBytes_len : ∀ k, (pubBytes k).length = 65
  pubBytes_head : ∀ k, (pubBytes k).head? = some 4
  import_pub : ∀ k, importPoint (pubBytes k) = true
  ecdh_comm : ∀ a b, ecdh a (pubBytes b) = ecdh b (pubBytes a)
  hkdf_len : ∀ s i inf l, (hkdf s i inf l).length = l
  aesGcm_roundtrip : ∀ k n m, aesGcmDecrypt k n (aesGcmEncrypt k n m) = some m
  aesGcmEncrypt_len : ∀ k n m, (aesGcmEncrypt k n m).length = m.length + 16

/-- The RFC 8291 key-agreement info string built in `encryptPayload`:
`"WebPush: info" || 0x00 || recipient_public_key || transmitter_public_key`
(the `0x00` is the `\0` the source embeds in the literal). -/
def webPushInfo (recipientPub ephemeralPub : List Nat) : List Nat :=
  utf8Bytes "WebPush: info" ++ [0] ++ recipientPub ++ ephemeralPub

/-- Info for the content-encryption key: `"Content-Encoding: aes128gcm" || 0x00`. -/
def cekInfo : List Nat := utf8Bytes "Content-Encoding: aes128gcm" ++ [0]

/-- Info for the nonce: `"Content-Encoding: nonce" || 0x00`. -/
def nonceInfo : List Nat := utf8Bytes "Content-Encoding: nonce" ++ [0]

/-- IKM derivation of `encryptPayload`:
`HKDF(salt = auth, ikm = sharedSecret, info = webPushInfo, len = 32)`. -/
def deriveIkm (P : WebCryptoPrims) (auth sharedSecret recipientPub ephemeralPub
    : List Nat) : List Nat :=
  P.hkdf auth sharedSecret (webPushInfo recipientPub ephemeralPub) 32

/-- CEK derivation of `encryptPayload`: `HKDF(salt, ikm, cekInfo, 16)`. -/
def deriveCek (P : WebCryptoPrims) (salt ikm : List Nat) : List Nat :=
  P.hkdf salt ikm cekInfo 16

/-- Nonce derivation of `encryptPayload`: `HKDF(salt, ikm, nonceInfo, 12)`. -/
def deriveNonce (P : WebCryptoPrims) (salt ikm : List Nat) : List Nat :=
  P.hkdf salt ikm nonceInfo 12

/-- The padded plaintext `encryptPayload` encrypts: the UTF-8 bytes of the
plaintext followed by the single RFC 8188 padding delimiter `0x02`. -/
def paddedPlaintext (plaintext : String) : List Nat :=
  utf8Bytes plaintext ++ [2]

/-- Error classes for `encryptPayload` failures, following the spec taxonomy:
`encodingError` is what `atob` throws on malformed base64
(`InvalidCharacterError`), `cryptoError` any `crypto.subtle` failure. -/
inductive PushError where
  | encodingError
  | cryptoError
deriving DecidableEq

/-- Encrypt payload for Web Push, RFC 8291 and RFC 8188 (source:
`encryptPayload`).  The two sources of randomness — the ephemeral ECDH key
pair from `generateKey` and the 16-byte salt from `getRandomValues` — are
explicit arguments `eph` and `salt`.  Failure points, in source order:
decoding `p256dh` (`atob` throw), importing the recipient point
(`importKey` throw), decoding `auth` (`atob` throw).  All later primitives
(`exportKey`, HKDF, AES-GCM with the 16-byte HKDF output) are total. -/
def encryptPayload (P : WebCryptoPrims) (eph : P.Priv) (salt : List Nat)
    (plaintext : String) (subscription : PushSubscription) :
    Except PushError (List Nat) :=
  match base64UrlToArrayBuffer subscription.keys.p256dh with
  | none => .error .encodingError
  | some recipientPublicKey =>
    if P.importPoint recipientPublicKey then
      match base64UrlToArrayBuffer subscription.keys.auth with
      | none => .error .encodingError
      | some auth =>
        let sharedSecret := P.ecdh eph recipientPublicKey
        let ephemeralPublicBytes := P.pubBytes eph
        let ikm := deriveIkm P auth sharedSecret recipientPublicKey
          ephemeralPublicBytes
        let cekRaw := deriveCek P salt ikm
        let nonce := deriveNonce P salt ikm
        let encrypted := P.aesGcmEncrypt cekRaw nonce (paddedPlaintext plaintext)
        let rs := [0, 0, 16, 0]
        let idlen := [ephemeralPublicBytes.length]
        .ok (salt ++ rs ++ idlen ++ ephemeralPublicBytes ++ encrypted)
    else .error .cryptoError

/-- Modelled from the spec: RFC 8188 padding removal by a standards-compliant
decoder (not part of the repository) — strip trailing `0x00` octets, then
require and remove the last-record delimiter `0x02`. -/
def stripPadding (l : List Nat) : Option (List Nat) :=
  match l.reverse.dropWhile (fun b => b == 0) with
  | [] => none
  | d :: rest => if d = 2 then some rest.reverse else none

/-- Modelled from the spec: a standards-compliant RFC 8188/8291 decoder (not
part of the repository), used to state the round-trip property.  It parses
the frame positionally — `salt` from bytes 0..15, the key-id length from
byte 20, the sender's ephemeral public key as the key id, the ciphertext
after the header — re-derives the IKM from the subscriber's private key and
auth secret, re-derives the CEK and nonce from the salt, decrypts, and
removes the RFC 8188 padding. -/
def rfc8291Decrypt (P : WebCryptoPrims) (subPriv : P.Priv)
    (auth frame : List Nat) : Option (List Nat) :=
  if frame.length < 86 then none
  else
    let salt := frame.take 16
    let idlen := (frame.drop 20).headD 0
    let keyid := (frame.drop 21).take idlen
    let body := frame.drop (21 + idlen)
    let sharedSecret := P.ecdh subPriv keyid
    let ikm := deriveIkm P auth sharedSecret (P.pubBytes subPriv) keyid
    let cek := deriveCek P salt ikm
    let nonce := deriveNonce P salt ikm
    match P.aesGcmDecrypt cek nonce body with
    | none => none
    | some padded => stripPadding padded

/-- A concrete instance of the Web Crypto primitives (not cryptographically
meaningful, but satisfying every stated law), used to evaluate the abstract
theorems at concrete inputs. -/
def trivPrims : WebCryptoPrims where
  Priv := Nat
  pubBytes k := 4 :: List.replicate 64 (k % 256)
  importPoint b := decide (b.length = 65) && (b.headD 0 == 4)
  ecdh a b := List.replicate 32 ((a + b.getD 1 0) % 256)
  hkdf salt ikm info l := List.replicate l ((salt.length + ikm.length + info.length) % 256)
  aesGcmEncrypt _ _ m := m ++ List.replicate 16 0
  aesGcmDecrypt _ _ c := if 16 ≤ c.length then some (c.take (c.length - 16)) else none
  pubBytes_len k := by simp
  pubBytes_head k := by simp
  import_pub k := by simp
  ecdh_comm a b := by
    dsimp only
    have hb : (4 :: List.replicate 64 (b % 256)).getD 1 0 = b % 256 := rfl
    have ha : (4 :: List.replicate 64 (a % 256)).getD 1 0 = a % 256 := rfl
    rw [hb, ha]
    have h : (a + b % 256) % 256 = (b + a % 256) % 256 := by omega
    rw [h]
  hkdf_len s i inf l := by simp
  aesGcm_roundtrip k n m := by
    dsimp only
    rw [if_pos (by simp)]
    simp
  aesGcmEncrypt_len k n m := by simp

/-- Get push service audience from a subscription endpoint (source:
`getAudience`): `scheme://host` of the endpoint URL.  URL parsing lives in
the platform; `scheme` and `host` are taken as the already-parsed parts. -/
def getAudience (scheme host : String) : String :=
  scheme ++ "//" ++ host

/-- Digit character for a hexadecimal value below 16 (lower case, as used
by JSON string escaping). -/
def hexDigit (n : Nat) : Char :=
  if n < 10 then Char.ofNat (48 + n) else Char.ofNat (97 + (n - 10))

/-- JSON string escaping as performed by `JSON.stringify` on the header and
payload member strings. -/
def jsonEscapeChar (c : Char) : List Char :=
  if c = '"' then ['\\', '"']
  else if c = '\\' then ['\\', '\\']
  else if c = Char.ofNat 8 then ['\\', 'b']
  else if c = Char.ofNat 9 then ['\\', 't']
  else if c = Char.ofNat 10 then ['\\', 'n']
  else if c = Char.ofNat 12 then ['\\', 'f']
  else if c = Char.ofNat 13 then ['\\', 'r']
  else if c.toNat < 32 then
    ['\\', 'u', '0', '0', hexDigit (c.toNat / 16), hexDigit (c.toNat % 16)]
  else [c]

/-- JSON string escaping as performed by `JSON.stringify`. -/
def jsonEscape (s : String) : String :=
  ⟨(s.data.map jsonEscapeChar).flatten⟩

/-- `JSON.stringify` of the JWT header `createVapidJwt` builds:
`alg` ES256, `typ` JWT. -/
def jwtHeaderJson : String :=
  "\x7b\"alg\":\"ES256\",\"typ\":\"JWT\"\x7d"

/-- `JSON.stringify` of the JWT payload `createVapidJwt` builds from the
audience, the normalized subject and the expiration time. -/
def vapidPayloadJson (audience subject : String) (expiration : Nat) : String :=
  "\x7b\"aud\":\"" ++ jsonEscape audience ++ "\",\"sub\":\"" ++
    jsonEscape subject ++ "\",\"exp\":" ++ toString expiration ++ "\x7d"

/-- The token expiration `createVapidJwt` computes:
`now + 86400` seconds (24 hours), with `now` the issuance time in whole
seconds (`Math.floor(Date.now() / 1000)`). -/
def vapidExpiration (now : Nat) : Nat :=
  now + 86400

/-- Character membership in a string (what `String.includes` checks for a
one-character needle), on the character list. -/
def strContains (s : String) (c : Char) : Bool :=
  s.data.contains c

/-- String prefix test (what `String.startsWith` checks), on the character
lists. -/
def strStartsWith (s pre : String) : Bool :=
  pre.data.isPrefixOf s.data

/-- Subject normalization inside `createVapidJwt`: prepend `mailto:` when the
subject contains `@` and starts with neither `mailto:` nor `https://`. -/
def normalizeSubject (subject : String) : String :=
  if strContains subject '@' && !strStartsWith subject "mailto:" &&
      !strStartsWith subject "https://" then
    "mailto:" ++ subject
  else subject

/-- Create a VAPID JWT token (source: `createVapidJwt`).  `sign` abstracts
`crypto.subtle.sign(ECDSA P-256 / SHA-256, privateKey, ·)` over the UTF-8
bytes of the signing input; `now` is the current time in whole seconds.
`btoa` (inside `base64UrlEncode`) throws on characters above U+00FF, which
`none` models; on the ASCII JSON produced here it always succeeds. -/
def createVapidJwt (sign : List Nat → List Nat) (now : Nat)
    (audience subject : String) : Option String :=
  let expiration := vapidExpiration now
  let finalSubject := normalizeSubject subject
  let payloadJson := vapidPayloadJson audience finalSubject expiration
  match base64UrlEncode jwtHeaderJson, base64UrlEncode payloadJson with
  | some encodedHeader, some encodedPayload =>
    let token := encodedHeader ++ "." ++ encodedPayload
    some (token ++ "." ++ arrayBufferToBase64Url (sign (utf8Bytes token)))
  | _, _ => none

/-- Outcome of one `sendPush` call as observed by the dispatcher: either the
push service's HTTP response status, or an exception thrown anywhere in the
attempt (key import, signing, encryption, or transport). -/
inductive PushOutcome where
  | response (status : Nat)
  | thrown
deriving DecidableEq

/-- Process a single subscription (source: `processSubscription` in push.ts).
The first component is the returned success flag, the second the list of
`deactivateSubscription` calls made (one per call, with the endpoint).
Status 200 or 201 succeeds; 410 deactivates the endpoint and fails; any
other status fails; a thrown exception is caught and fails. -/
def processSubscription (endpoint : String) (res : PushOutcome) :
    Bool × List String :=
  match res with
  | .response s =>
    if s = 200 ∨ s = 201 then (true, [])
    else if s = 410 then (false, [endpoint])
    else (false, [])
  | .thrown => (false, [])

/-- Send push notification to all active subscriptions (source:
`sendPushToAll` in push.ts).  The input pairs each active subscriber's
endpoint with the outcome of its delivery attempt; `getActiveSubscriptions`
and the network are external.  The source maps `processSubscription` over
the subscribers under `Promise.all`, then counts successes and failures in
a loop; the second component collects the deactivation calls. -/
def sendPushToAll (subs : List (String × PushOutcome)) :
    (Nat × Nat) × List String :=
  let results := subs.map fun p => processSubscription p.1 p.2
  (results.foldl
      (fun acc r => if r.1 then (acc.1 + 1, acc.2) else (acc.1, acc.2 + 1))
      (0, 0),
    (results.map fun r => r.2).flatten)

/-- The legacy `sendPushToAll` (the duplicated copy of push.ts): a
sequential `for` loop over the subscribers with an inline `try`/`catch`,
incrementing `sent` on 200/201, deactivating then incrementing `failed` on
410, and incrementing `failed` on any other status or a caught exception. -/
def sendPushToAllLegacy (subs : List (String × PushOutcome)) :
    (Nat × Nat) × List String :=
  subs.foldl
    (fun acc p =>
      match p.2 with
      | .response s =>
        if s = 200 ∨ s = 201 then ((acc.1.1 + 1, acc.1.2), acc.2)
        else if s = 410 then ((acc.1.1, acc.1.2 + 1), acc.2 ++ [p.1])
        else ((acc.1.1, acc.1.2 + 1), acc.2)
      | .thrown => ((acc.1.1, acc.1.2 + 1), acc.2))
    ((0, 0), [])

/-- Whether a delivery outcome counts as sent: an HTTP 200 or 201 response. -/
def isDeliverySuccess (res : PushOutcome) : Bool :=
  match res with
  | .response s => s == 200 || s == 201
  | .thrown => false

/-- A stored subscription row (source: `SubscriptionRecord` in db.ts). -/
structure SubscriptionRecord where
  endpoint : String
  p256dh : String
  auth : String
  expiration_time : Option Int
  user_agent : Option String
  created_at : Int
  updated_at : Int
  active : Nat

/-- Outcome of one `fetch` to the push service as observed by
`sendNotificationToSubscription`: the response status, status text and body
text, or a thrown exception with its message. -/
inductive FetchResult where
  | response (status : Nat) (statusText : String) (bodyText : String)
  | thrown (message : String)

/-- The record returned by `sendNotificationToSubscription`. -/
structure SendResultDetail where
  success : Bool
  status : Nat
  statusText : String
deriving DecidableEq

/-- Send notification to a specific subscription (source:
`sendNotificationToSubscription` in push.ts).  `store` abstracts
`getSubscriptionByEndpoint`; `net` the outcome of the `sendPush` attempt.
The second component counts network calls issued: none when the endpoint is
absent from the store, one for an attempt that reaches a response (a thrown
attempt is modelled as the transport failing on that one attempt). -/
def sendNotificationToSubscription (store : String → Option SubscriptionRecord)
    (net : FetchResult) (endpoint : String) (_payload : String) :
    SendResultDetail × Nat :=
  match store endpoint with
  | none => (⟨false, 404, "Subscription not found in DB"⟩, 0)
  | some _record =>
    match net with
    | .response s statusText bodyText =>
      (⟨s == 200 || s == 201, s,
        statusText ++ (if bodyText ≠ "" then " - " ++ bodyText else "")⟩, 1)
    | .thrown message => (⟨false, 500, message⟩, 1)

/-- A concrete 16-byte salt, standing for one draw of `getRandomValues`. -/
def saltA : List Nat := List.replicate 16 7

/-- A second, distinct concrete 16-byte salt. -/
def saltB : List Nat := List.replicate 16 9

/-- The auth secret of the concrete subscriber: 16 zero bytes. -/
def authA : List Nat := List.replicate 16 0

/-- A concrete subscriber whose `p256dh` encodes `trivPrims.pubBytes 1`
(the public key of the private scalar 1 in the concrete model) and whose
`auth` encodes 16 zero bytes. -/
def subA : PushSubscription :=
  ⟨"https://push.example.com/sub/1", none,
    ⟨"BAEBAQEBAQEBAQEBAQEBAQEBAQEBAQEBAQEBAQEBAQEBAQEBAQEBAQEBAQEBAQEBAQEBAQEBAQEBAQEBAQEBAQE",
      "AAAAAAAAAAAAAAAAAAAAAA"⟩⟩

/-- A concrete subscriber with a well-formed `p256dh` but an `auth` that is
valid base64url of only 5 bytes (not the 16 the protocol expects). -/
def subBadAuth : PushSubscription :=
  ⟨"https://push.example.com/sub/2", none,
    ⟨"BAEBAQEBAQEBAQEBAQEBAQEBAQEBAQEBAQEBAQEBAQEBAQEBAQEBAQEBAQEBAQEBAQEBAQEBAQEBAQEBAQEBAQE",
      "AAAAAAA"⟩⟩

/-- The frame produced by encrypting "hi" for `subA` in the concrete model
with ephemeral key 2 and salt `saltA`. -/
def frameA : List Nat :=
  (encryptPayload trivPrims ((2 : Nat) : trivPrims.Priv) saltA "hi" subA).toOption.getD []

/-- The frame produced by the same encryption with salt `saltB`. -/
def frameB : List Nat :=
  (encryptPayload trivPrims ((2 : Nat) : trivPrims.Priv) saltB "hi" subA).toOption.getD []

/-- The frame produced by encrypting "hi" for `subBadAuth` in the concrete
model: the wrong-length auth is accepted. -/
def frameBad : List Nat :=
  (encryptPayload trivPrims ((2 : Nat) : trivPrims.Priv) saltA "hi" subBadAuth).toOption.getD []

theorem take_of_length_eq {α : Type} {l₁ : List α} (l₂ : List α) {n : Nat}
    (h : l₁.length = n) : (l₁ ++ l₂).take n = l₁ := by
  subst h; simp

theorem drop_of_length_eq {α : Type} {l₁ : List α} (l₂ : List α) {n : Nat}
    (h : l₁.length = n) : (l₁ ++ l₂).drop n = l₂ := by
  subst h; simp

theorem processSubscription_fst (e : String) (r : PushOutcome) :
    (processSubscription e r).1 = isDeliverySuccess r := by
  cases r with
  | thrown => rfl
  | response s =>
    simp only [processSubscription, isDeliverySuccess]
    by_cases h : s = 200 ∨ s = 201
    · rw [if_pos h]
      rcases h with h | h <;> subst h <;> rfl
    · rw [if_neg h]
      have h200 : (s == 200) = false := by
        simp only [beq_eq_false_iff_ne, ne_eq]
        exact fun hs => h (Or.inl hs)
      have h201 : (s == 201) = false := by
        simp only [beq_eq_false_iff_ne, ne_eq]
        exact fun hs => h (Or.inr hs)
      rw [h200, h201]
      by_cases h4 : s = 410 <;> simp [h4]

theorem processSubscription_snd (e : String) (r : PushOutcome) :
    (processSubscription e r).2 =
      if r == PushOutcome.response 410 then [e] else [] := by
  cases r with
  | thrown => rfl
  | response s =>
    simp only [processSubscription]
    by_cases h4 : s = 410
    · subst h4; rfl
    · have hne : (PushOutcome.response s == PushOutcome.response 410) = false := by
        simp only [beq_eq_false_iff_ne, ne_eq]
        intro hc
        exact h4 (by injection hc)
      rw [hne]
      by_cases h : s = 200 ∨ s = 201 <;> simp [h, h4]

theorem foldl_count_eq (l : List (Bool × List String)) (a b : Nat) :
    l.foldl (fun acc r => if r.1 then (acc.1 + 1, acc.2) else (acc.1, acc.2 + 1))
        (a, b) =
      (a + l.countP (fun r => r.1), b + l.countP (fun r => !r.1)) := by
  induction l generalizing a b with
  | nil => simp
  | cons x xs ih =>
    cases hx : x.1 <;>
      simp [List.foldl_cons, hx, ih, List.countP_cons, Prod.ext_iff] <;>
      omega

theorem flatten_deactivations (l : List (String × PushOutcome)) :
    ((l.map fun p => processSubscription p.1 p.2).map fun r => r.2).flatten =
      (l.filter fun p => p.2 == PushOutcome.response 410).map fun p => p.1 := by
  induction l with
  | nil => rfl
  | cons x xs ih =>
    simp only [List.map_cons, List.flatten_cons, ih, List.filter_cons,
      processSubscription_snd]
    by_cases h : (x.2 == PushOutcome.response 410) = true <;> simp [h]

theorem sendPushToAll_eq (subs : List (String × PushOutcome)) :
    sendPushToAll subs =
      ((subs.countP fun p => isDeliverySuccess p.2,
        subs.countP fun p => !isDeliverySuccess p.2),
        (subs.filter fun p => p.2 == PushOutcome.response 410).map fun p => p.1) := by
  simp only [sendPushToAll, foldl_count_eq, flatten_deactivations, Nat.zero_add]
  congr 1
  congr 1
  · rw [List.countP_map]
    exact List.countP_congr fun x _ => by
      simp [Function.comp, processSubscription_fst]
  · rw [List.countP_map]
    exact List.countP_congr fun x _ => by
      simp [Function.comp, processSubscription_fst]

theorem sendPushToAllLegacy_eq (subs : List (String × PushOutcome)) :
    sendPushToAllLegacy subs =
      ((subs.countP fun p => isDeliverySuccess p.2,
        subs.countP fun p => !isDeliverySuccess p.2),
        (subs.filter fun p => p.2 == PushOutcome.response 410).map fun p => p.1) := by
  suffices h : ∀ (a b : Nat) (ds : List String),
      (subs.foldl
        (fun acc p =>
          match p.2 with
          | .response s =>
            if s = 200 ∨ s = 201 then ((acc.1.1 + 1, acc.1.2), acc.2)
            else if s = 410 then ((acc.1.1, acc.1.2 + 1), acc.2 ++ [p.1])
            else ((acc.1.1, acc.1.2 + 1), acc.2)
          | .thrown => ((acc.1.1, acc.1.2 + 1), acc.2))
        ((a, b), ds)) =
      ((a + subs.countP fun p => isDeliverySuccess p.2,
        b + subs.countP fun p => !isDeliverySuccess p.2),
        ds ++ ((subs.filter fun p => p.2 == PushOutcome.response 410).map fun p => p.1)) by
    simpa [sendPushToAllLegacy] using h 0 0 []
  induction subs with
  | nil => intro a b ds; simp
  | cons x xs ih =>
    intro a b ds
    rcases x with ⟨e, r⟩
    cases r with
    | thrown =>
      simp [List.foldl_cons, ih, List.countP_cons, List.filter_cons,
        isDeliverySuccess, Prod.ext_iff]
      omega
    | response s =>
      by_cases h4 : s = 410
      · subst h4
        have hsucc : isDeliverySuccess (PushOutcome.response 410) = false := rfl
        simp [List.foldl_cons, ih, List.countP_cons, List.filter_cons, hsucc,
          Prod.ext_iff]
        omega
      · by_cases h : s = 200 ∨ s = 201
        · have hsucc : isDeliverySuccess (PushOutcome.response s) = true := by
            rcases h with h | h <;> subst h <;> rfl
          simp [List.foldl_cons, h, ih, List.countP_cons, List.filter_cons,
            hsucc, h4, Prod.ext_iff]
          omega
        · have hsucc : isDeliverySuccess (PushOutcome.response s) = false := by
            simp only [isDeliverySuccess]
            have h200 : (s == 200) = false := by
              simp only [beq_eq_false_iff_ne, ne_eq]; omega
            have h201 : (s == 201) = false := by
              simp only [beq_eq_false_iff_ne, ne_eq]; omega
            rw [h200, h201]; rfl
          simp [List.foldl_cons, h, ih, List.countP_cons, List.filter_cons,
            hsucc, h4, Prod.ext_iff]
          omega

/-- C3: for every subscriber list, `sendPushToAll` performs one delivery
attempt per subscriber and — as a total function, without raising — returns
`(sent, failed)` where `sent` counts exactly the 200/201 responses, `failed`
everything else (including 410 and caught exceptions), `sent + failed` is
the number of subscribers, and the deactivation calls are exactly one per
subscriber whose response was 410; in particular five subscribers with
statuses 200, 201, 410, 200 and a thrown exception yield `(3, 2)` and a
single deactivation of the third endpoint. -/
theorem sendPushToAll_fanout_isolation (subs : List (String × PushOutcome)) :
    (sendPushToAll subs).1.1 = subs.countP (fun p => isDeliverySuccess p.2) ∧
    (sendPushToAll subs).1.2 = subs.countP (fun p => !isDeliverySuccess p.2) ∧
    (sendPushToAll subs).1.1 + (sendPushToAll subs).1.2 = subs.length ∧
    (sendPushToAll subs).2 =
      (subs.filter fun p => p.2 == PushOutcome.response 410).map (fun p => p.1) ∧
    sendPushToAll [("e1", .response 200), ("e2", .response 201),
      ("e3", .response 410), ("e4", .response 200), ("e5", .thrown)] =
      ((3, 2), ["e3"]) := by
  refine ⟨?_, ?_, ?_, ?_, by rfl⟩
  · rw [sendPushToAll_eq]
  · rw [sendPushToAll_eq]
  · rw [sendPushToAll_eq]
    have h := List.length_eq_countP_add_countP (fun p => isDeliverySuccess p.2)
      subs
    simpa using h.symm
  · rw [sendPushToAll_eq]

/-- C10: the current `sendPushToAll` (concurrent fan-out over
`processSubscription` with `Promise.all`) and the legacy sequential
`for`-loop implementation return the same `(sent, failed)` aggregate and
make the same deactivation calls for every subscriber list and every
assignment of per-subscriber outcomes. -/
theorem sendPushToAll_refines_legacy (subs : List (String × PushOutcome)) :
    sendPushToAll subs = sendPushToAllLegacy subs := by
  rw [sendPushToAll_eq, sendPushToAllLegacy_eq]

/-- C8 counterexample: a subject that starts with `https:` (but not
`https://`) and contains `@` is changed by the code — `mailto:` is
prepended — whereas the claim says it must be left unchanged. -/
theorem normalizeSubject_https_colon_counterexample :
    (strStartsWith "https:user@example.com" "https:") = true ∧
    normalizeSubject "https:user@example.com" ≠ "https:user@example.com" ∧
    normalizeSubject "https:user@example.com" = "mailto:https:user@example.com" := by
  exact ⟨by decide, by decide, by decide⟩

/-- C8 (amended): `normalizeSubject` prepends `mailto:` exactly when the
subject contains `@` and starts with neither `mailto:` nor `https://`
(with the two slashes — a subject starting with `https:` alone is still
prefixed); the three examples of the claim behave as stated. -/
theorem normalizeSubject_characterization (s : String) :
    (normalizeSubject s ≠ s ↔
      (strContains s '@' && !strStartsWith s "mailto:" &&
        !strStartsWith s "https://") = true) ∧
    (normalizeSubject s = "mailto:" ++ s ↔
      (strContains s '@' && !strStartsWith s "mailto:" &&
        !strStartsWith s "https://") = true) ∧
    normalizeSubject "user@example.com" = "mailto:user@example.com" ∧
    normalizeSubject "https://example.com/contact" = "https://example.com/contact" ∧
    normalizeSubject "mailto:user@example.com" = "mailto:user@example.com" := by
  have hne : "mailto:" ++ s ≠ s := by
    intro h
    have hlen := congrArg String.length h
    rw [String.length_append] at hlen
    have h7 : ("mailto:" : String).length = 7 := rfl
    omega
  refine ⟨?_, ?_, by decide, by decide, by decide⟩ <;>
    by_cases hc : (strContains s '@' && !strStartsWith s "mailto:" &&
      !strStartsWith s "https://") = true
  · rw [normalizeSubject, if_pos hc]
    exact ⟨fun _ => hc, fun _ => hne⟩
  · rw [normalizeSubject, if_neg hc]
    simp [hc]
  · rw [normalizeSubject, if_pos hc]
    exact ⟨fun _ => hc, fun _ => rfl⟩
  · rw [normalizeSubject, if_neg hc]
    exact ⟨fun h => absurd h.symm hne, fun h => absurd h hc⟩

/-- C9 counterexample: for an endpoint absent from the store the returned
detail string is `"Subscription not found in DB"`, not the `"not found"`
the claim states (status 404 and zero network calls do hold). -/
theorem sendNotificationToSubscription_detail_counterexample :
    (sendNotificationToSubscription (fun _ => none) (.thrown "boom")
        "https://push.example.com/sub/1" "payload").1.statusText ≠ "not found" ∧
    (sendNotificationToSubscription (fun _ => none) (.thrown "boom")
        "https://push.example.com/sub/1" "payload").1.status = 404 ∧
    (sendNotificationToSubscription (fun _ => none) (.thrown "boom")
        "https://push.example.com/sub/1" "payload").2 = 0 := by
  exact ⟨by decide, rfl, rfl⟩

/-- C9 (amended): for every endpoint absent from the subscriber store,
`sendNotificationToSubscription` returns success `false`, status 404 and
detail `"Subscription not found in DB"`, and performs zero network calls. -/
theorem sendNotificationToSubscription_absent (store : String → Option SubscriptionRecord)
    (net : FetchResult) (endpoint payload : String)
    (h : store endpoint = none) :
    sendNotificationToSubscription store net endpoint payload =
      (⟨false, 404, "Subscription not found in DB"⟩, 0) := by
  simp [sendNotificationToSubscription, h]

theorem sendNotificationToSubscription_absent_witness :
    sendNotificationToSubscription (fun _ => none) (.thrown "boom")
        "https://push.example.com/sub/1" "payload" =
      (⟨false, 404, "Subscription not found in DB"⟩, 0) :=
  sendNotificationToSubscription_absent _ _ _ _ rfl

/-- C7: every token produced by `createVapidJwt` consists of the encoded
fixed header, the encoded payload whose `exp` claim is `now + 86400`, and
the encoded signature over the first two segments; the expiration is
exactly the issuance time plus 86400 seconds and hence never exceeds
issuance time plus 24 hours. -/
theorem createVapidJwt_exp_bound (sign : List Nat → List Nat) (now : Nat)
    (audience subject : String) :
    createVapidJwt sign now audience subject =
      (base64UrlEncode
        (vapidPayloadJson audience (normalizeSubject subject) (now + 86400))).map
        (fun encodedPayload =>
          ("eyJhbGciOiJFUzI1NiIsInR5cCI6IkpXVCJ9" ++ "." ++ encodedPayload) ++ "." ++
            arrayBufferToBase64Url (sign (utf8Bytes
              ("eyJhbGciOiJFUzI1NiIsInR5cCI6IkpXVCJ9" ++ "." ++ encodedPayload)))) ∧
    vapidExpiration now = now + 86400 ∧
    vapidExpiration now ≤ now + 24 * 60 * 60 := by
  refine ⟨?_, rfl, by simp [vapidExpiration]⟩
  simp only [createVapidJwt, vapidExpiration]
  have hh : base64UrlEncode jwtHeaderJson =
      some "eyJhbGciOiJFUzI1NiIsInR5cCI6IkpXVCJ9" := by decide
  rw [hh]
  cases hp : base64UrlEncode
      (vapidPayloadJson audience (normalizeSubject subject) (now + 86400)) with
  | none => simp
  | some encodedPayload => simp

theorem encryptPayload_ok_eq (P : WebCryptoPrims) (eph : P.Priv)
    (salt : List Nat) (plaintext : String) (sub : PushSubscription)
    (pk a : List Nat)
    (h1 : base64UrlToArrayBuffer sub.keys.p256dh = some pk)
    (h2 : P.importPoint pk = true)
    (h3 : base64UrlToArrayBuffer sub.keys.auth = some a) :
    encryptPayload P eph salt plaintext sub =
      .ok (salt ++ [0, 0, 16, 0] ++ [(P.pubBytes eph).length] ++ P.pubBytes eph ++
        P.aesGcmEncrypt
          (deriveCek P salt (deriveIkm P a (P.ecdh eph pk) pk (P.pubBytes eph)))
          (deriveNonce P salt (deriveIkm P a (P.ecdh eph pk) pk (P.pubBytes eph)))
          (paddedPlaintext plaintext)) := by
  simp [encryptPayload, h1, h2, h3]

theorem encryptPayload_ok_cases (P : WebCryptoPrims) (eph : P.Priv)
    (salt : List Nat) (plaintext : String) (sub : PushSubscription)
    (frame : List Nat)
    (hok : encryptPayload P eph salt plaintext sub = .ok frame) :
    ∃ pk a, base64UrlToArrayBuffer sub.keys.p256dh = some pk ∧
      P.importPoint pk = true ∧
      base64UrlToArrayBuffer sub.keys.auth = some a ∧
      frame = salt ++ [0, 0, 16, 0] ++ [(P.pubBytes eph).length] ++ P.pubBytes eph ++
        P.aesGcmEncrypt
          (deriveCek P salt (deriveIkm P a (P.ecdh eph pk) pk (P.pubBytes eph)))
          (deriveNonce P salt (deriveIkm P a (P.ecdh eph pk) pk (P.pubBytes eph)))
          (paddedPlaintext plaintext) := by
  cases hp : base64UrlToArrayBuffer sub.keys.p256dh with
  | none => simp [encryptPayload, hp] at hok
  | some pk =>
    cases himp : P.importPoint pk with
    | false => simp [encryptPayload, hp, himp] at hok
    | true =>
      cases ha : base64UrlToArrayBuffer sub.keys.auth with
      | none => simp [encryptPayload, hp, himp, ha] at hok
      | some a =>
        rw [encryptPayload_ok_eq P eph salt plaintext sub pk a hp himp ha] at hok
        refine ⟨pk, a, rfl, himp, rfl, ?_⟩
        injection hok with h
        exact h.symm

theorem frame_parse (P : WebCryptoPrims) (eph : P.Priv)
    (salt ct frame : List Nat) (hsalt : salt.length = 16)
    (hframe : frame = salt ++ [0, 0, 16, 0] ++ [(P.pubBytes eph).length] ++
      P.pubBytes eph ++ ct) :
    frame.take 16 = salt ∧
    (frame.drop 16).take 4 = [0, 0, 16, 0] ∧
    (frame.drop 20).headD 0 = 65 ∧
    (frame.drop 21).headD 0 = 4 ∧
    (frame.drop 21).take 65 = P.pubBytes eph ∧
    frame.drop 86 = ct ∧
    frame.length = ct.length + 86 ∧
    frame.take 86 = salt ++ [0, 0, 16, 0] ++ [65] ++ P.pubBytes eph := by
  have hl : (P.pubBytes eph).length = 65 := P.pubBytes_len eph
  have hhead : (P.pubBytes eph).head? = some 4 := P.pubBytes_head eph
  obtain ⟨tl, hpub⟩ : ∃ tl, P.pubBytes eph = 4 :: tl := by
    cases hp : P.pubBytes eph with
    | nil => rw [hp] at hhead; simp at hhead
    | cons x tl =>
      rw [hp] at hhead
      simp only [List.head?_cons, Option.some.injEq] at hhead
      exact ⟨tl, by rw [hhead]⟩
  have hG : frame = salt ++ ([0, 0, 16, 0] ++ ([(P.pubBytes eph).length] ++
      (P.pubBytes eph ++ ct))) := by
    rw [hframe]; simp [List.append_assoc]
  have e16 : frame.drop 16 = [0, 0, 16, 0] ++ ([(P.pubBytes eph).length] ++
      (P.pubBytes eph ++ ct)) := by
    rw [hG]; exact drop_of_length_eq _ hsalt
  have e20 : frame.drop 20 = [(P.pubBytes eph).length] ++ (P.pubBytes eph ++ ct) := by
    rw [show (20 : Nat) = 16 + 4 from rfl, ← List.drop_drop, e16]
    rfl
  have e21 : frame.drop 21 = P.pubBytes eph ++ ct := by
    rw [show (21 : Nat) = 20 + 1 from rfl, ← List.drop_drop, e20]
    rfl
  have e86 : frame.drop 86 = ct := by
    rw [show (86 : Nat) = 21 + 65 from rfl, ← List.drop_drop, e21]
    exact drop_of_length_eq _ hl
  have elen : frame.length = ct.length + 86 := by
    rw [hframe]
    simp [List.length_append, hsalt, hl]
    omega
  refine ⟨?_, ?_, ?_, ?_, ?_, e86, elen, ?_⟩
  · rw [hG]; exact take_of_length_eq _ hsalt
  · rw [e16]; rfl
  · rw [e20]; exact hl
  · rw [e21, hpub]; rfl
  · rw [e21]; exact take_of_length_eq _ hl
  · have hform : frame = (salt ++ [0, 0, 16, 0] ++ [65] ++ P.pubBytes eph) ++ ct := by
      rw [hframe, hl]
    have hsplit : frame.take 86 ++ ct = frame := by
      rw [← e86]
      exact List.take_append_drop 86 frame
    rw [hform] at hsplit ⊢
    exact List.append_cancel_right hsplit

/-- C2: every frame produced by `encryptPayload` has the fixed positional
layout `salt(16) || recordSize(4, big-endian 4096, bytes 0x00 0x00 0x10
0x00) || keyIdLength(1, value 65) || ephemeralPublicKey(65, first byte
0x04) || ciphertext`, with the header occupying exactly the first 86
bytes. -/
theorem encryptPayload_frame_layout (P : WebCryptoPrims) (eph : P.Priv)
    (salt : List Nat) (plaintext : String) (sub : PushSubscription)
    (frame : List Nat)
    (hok : encryptPayload P eph salt plaintext sub = .ok frame)
    (hsalt : salt.length = 16) :
    frame.take 16 = salt ∧
    (frame.drop 16).take 4 = [0, 0, 16, 0] ∧
    (frame.drop 20).headD 0 = 65 ∧
    (frame.drop 21).headD 0 = 4 ∧
    (frame.drop 21).take 65 = P.pubBytes eph ∧
    frame.take 86 = salt ++ [0, 0, 16, 0] ++ [65] ++ P.pubBytes eph ∧
    86 ≤ frame.length := by
  obtain ⟨pk, a, hp, himp, ha, hframe⟩ :=
    encryptPayload_ok_cases P eph salt plaintext sub frame hok
  obtain ⟨f1, f2, f3, f4, f5, f6, f7, f8⟩ :=
    frame_parse P eph salt _ frame hsalt hframe
  exact ⟨f1, f2, f3, f4, f5, f8, by omega⟩

theorem encryptPayload_frame_layout_witness :
    frameA.take 16 = saltA ∧
    (frameA.drop 16).take 4 = [0, 0, 16, 0] ∧
    (frameA.drop 20).headD 0 = 65 ∧
    (frameA.drop 21).headD 0 = 4 ∧
    (frameA.drop 21).take 65 = trivPrims.pubBytes ((2 : Nat) : trivPrims.Priv) ∧
    frameA.take 86 = saltA ++ [0, 0, 16, 0] ++ [65] ++
      trivPrims.pubBytes ((2 : Nat) : trivPrims.Priv) ∧
    86 ≤ frameA.length :=
  encryptPayload_frame_layout trivPrims ((2 : Nat) : trivPrims.Priv) saltA "hi"
    subA frameA rfl rfl

/-- C6: `encryptPayload` appends exactly the single delimiter byte `0x02`
to the UTF-8 plaintext and encrypts that padded input with AES-128-GCM
under the derived CEK and nonce; consequently the ciphertext portion of
the frame is `n + 17` bytes (plaintext plus delimiter plus 16-byte GCM
tag) and the whole frame is `n + 103` bytes for an `n`-byte plaintext. -/
theorem encryptPayload_padding_and_length (P : WebCryptoPrims) (eph : P.Priv)
    (salt : List Nat) (plaintext : String) (sub : PushSubscription)
    (pk a frame : List Nat)
    (hp : base64UrlToArrayBuffer sub.keys.p256dh = some pk)
    (ha : base64UrlToArrayBuffer sub.keys.auth = some a)
    (hok : encryptPayload P eph salt plaintext sub = .ok frame)
    (hsalt : salt.length = 16) :
    frame.drop 86 =
      P.aesGcmEncrypt
        (deriveCek P salt (deriveIkm P a (P.ecdh eph pk) pk (P.pubBytes eph)))
        (deriveNonce P salt (deriveIkm P a (P.ecdh eph pk) pk (P.pubBytes eph)))
        (utf8Bytes plaintext ++ [2]) ∧
    (frame.drop 86).length = (utf8Bytes plaintext).length + 17 ∧
    frame.length = (utf8Bytes plaintext).length + 103 := by
  obtain ⟨pk2, a2, hp2, himp2, ha2, hframe⟩ :=
    encryptPayload_ok_cases P eph salt plaintext sub frame hok
  rw [hp] at hp2
  rw [ha] at ha2
  injection hp2 with hpk2
  injection ha2 with ha22
  subst hpk2
  subst ha22
  obtain ⟨_, _, _, _, _, f6, f7, _⟩ :=
    frame_parse P eph salt _ frame hsalt hframe
  have hctlen := P.aesGcmEncrypt_len
    (deriveCek P salt (deriveIkm P a (P.ecdh eph pk) pk (P.pubBytes eph)))
    (deriveNonce P salt (deriveIkm P a (P.ecdh eph pk) pk (P.pubBytes eph)))
    (paddedPlaintext plaintext)
  have hpadlen : (paddedPlaintext plaintext).length = (utf8Bytes plaintext).length + 1 := by
    simp [paddedPlaintext]
  refine ⟨?_, ?_, ?_⟩
  · rw [f6]; rfl
  · rw [f6, hctlen, hpadlen]
  · rw [f7, hctlen, hpadlen]

theorem encryptPayload_padding_and_length_witness :
    frameA.drop 86 =
      trivPrims.aesGcmEncrypt
        (deriveCek trivPrims saltA
          (deriveIkm trivPrims authA
            (trivPrims.ecdh ((2 : Nat) : trivPrims.Priv)
              (trivPrims.pubBytes ((1 : Nat) : trivPrims.Priv)))
            (trivPrims.pubBytes ((1 : Nat) : trivPrims.Priv))
            (trivPrims.pubBytes ((2 : Nat) : trivPrims.Priv))))
        (deriveNonce trivPrims saltA
          (deriveIkm trivPrims authA
            (trivPrims.ecdh ((2 : Nat) : trivPrims.Priv)
              (trivPrims.pubBytes ((1 : Nat) : trivPrims.Priv)))
            (trivPrims.pubBytes ((1 : Nat) : trivPrims.Priv))
            (trivPrims.pubBytes ((2 : Nat) : trivPrims.Priv))))
        (utf8Bytes "hi" ++ [2]) ∧
    (frameA.drop 86).length = (utf8Bytes "hi").length + 17 ∧
    frameA.length = (utf8Bytes "hi").length + 103 :=
  encryptPayload_padding_and_length trivPrims ((2 : Nat) : trivPrims.Priv)
    saltA "hi" subA (trivPrims.pubBytes ((1 : Nat) : trivPrims.Priv)) authA
    frameA rfl rfl rfl rfl

/-- C5: whenever two invocations of `encryptPayload` use a different random
salt or a different ephemeral public key — as two draws of fresh
randomness do — the two produced frames differ, even for the same
plaintext and subscriber. -/
theorem encryptPayload_nondeterminism (P : WebCryptoPrims)
    (eph₁ eph₂ : P.Priv) (salt₁ salt₂ : List Nat) (plaintext : String)
    (sub : PushSubscription) (f₁ f₂ : List Nat)
    (h₁ : encryptPayload P eph₁ salt₁ plaintext sub = .ok f₁)
    (h₂ : encryptPayload P eph₂ salt₂ plaintext sub = .ok f₂)
    (hs₁ : salt₁.length = 16) (hs₂ : salt₂.length = 16)
    (hne : salt₁ ≠ salt₂ ∨ P.pubBytes eph₁ ≠ P.pubBytes eph₂) :
    f₁ ≠ f₂ := by
  obtain ⟨pk₁, a₁, _, _, _, hf₁⟩ :=
    encryptPayload_ok_cases P eph₁ salt₁ plaintext sub f₁ h₁
  obtain ⟨pk₂, a₂, _, _, _, hf₂⟩ :=
    encryptPayload_ok_cases P eph₂ salt₂ plaintext sub f₂ h₂
  obtain ⟨t₁, _, _, _, p₁, _, _, _⟩ := frame_parse P eph₁ salt₁ _ f₁ hs₁ hf₁
  obtain ⟨t₂, _, _, _, p₂, _, _, _⟩ := frame_parse P eph₂ salt₂ _ f₂ hs₂ hf₂
  intro heq
  rcases hne with hs | hp
  · exact hs (by rw [← t₁, ← t₂, heq])
  · exact hp (by rw [← p₁, ← p₂, heq])

theorem encryptPayload_nondeterminism_witness : frameA ≠ frameB :=
  encryptPayload_nondeterminism trivPrims ((2 : Nat) : trivPrims.Priv)
    ((2 : Nat) : trivPrims.Priv) saltA saltB "hi" subA frameA frameB rfl rfl
    rfl rfl (Or.inl (by decide))

/-- C4 counterexample: a subscriber whose `auth` is valid base64url but
decodes to only 5 bytes (not 16) is accepted by `encryptPayload`, which
returns a frame instead of the `EncodingError` the claim requires for a
wrong-length auth secret. -/
theorem encryptPayload_auth_length_counterexample :
    base64UrlToArrayBuffer subBadAuth.keys.auth = some [0, 0, 0, 0, 0] ∧
    encryptPayload trivPrims ((2 : Nat) : trivPrims.Priv) saltA "hi" subBadAuth =
      .ok frameBad ∧
    encryptPayload trivPrims ((2 : Nat) : trivPrims.Priv) saltA "hi" subBadAuth ≠
      .error .encodingError := by
  refine ⟨by decide, rfl, ?_⟩
  intro h
  have hbad : encryptPayload trivPrims ((2 : Nat) : trivPrims.Priv) saltA "hi"
      subBadAuth = .ok frameBad := rfl
  exact Except.noConfusion (hbad.symm.trans h)

/-- C4 (amended): `encryptPayload` succeeds exactly when `p256dh` and
`auth` are valid base64url and the decoded `p256dh` imports as a P-256
point; it fails with `EncodingError` exactly when `p256dh` — or, with
`p256dh` decodable and importable, `auth` — is not valid base64url; it
fails with `CryptoError` exactly when the decoded `p256dh` is rejected by
key import (for example by having a length other than 65).  The decoded
length of `auth` is never checked. -/
theorem encryptPayload_error_conditions (P : WebCryptoPrims) (eph : P.Priv)
    (salt : List Nat) (plaintext : String) (sub : PushSubscription) :
    ((∃ frame, encryptPayload P eph salt plaintext sub = .ok frame) ↔
      (∃ pk a, base64UrlToArrayBuffer sub.keys.p256dh = some pk ∧
        P.importPoint pk = true ∧
        base64UrlToArrayBuffer sub.keys.auth = some a)) ∧
    (encryptPayload P eph salt plaintext sub = .error .encodingError ↔
      (base64UrlToArrayBuffer sub.keys.p256dh = none ∨
        (∃ pk, base64UrlToArrayBuffer sub.keys.p256dh = some pk ∧
          P.importPoint pk = true ∧
          base64UrlToArrayBuffer sub.keys.auth = none))) ∧
    (encryptPayload P eph salt plaintext sub = .error .cryptoError ↔
      (∃ pk, base64UrlToArrayBuffer sub.keys.p256dh = some pk ∧
        P.importPoint pk = false)) := by
  cases hp : base64UrlToArrayBuffer sub.keys.p256dh with
  | none => simp [encryptPayload, hp]
  | some pk =>
    cases himp : P.importPoint pk with
    | false => simp [encryptPayload, hp, himp]
    | true =>
      cases ha : base64UrlToArrayBuffer sub.keys.auth with
      | none => simp [encryptPayload, hp, himp, ha]
      | some a =>
        have he := encryptPayload_ok_eq P eph salt plaintext sub pk a hp himp ha
        rw [he]
        simp [himp]

theorem stripPadding_padded (m : List Nat) : stripPadding (m ++ [2]) = some m := by
  simp [stripPadding, List.dropWhile_cons]

/-- C1: for every plaintext and every subscriber whose `p256dh` is valid
base64url for the raw public key of some P-256 private key and whose
`auth` is valid base64url for a 16-byte secret, a standards-compliant
RFC 8188/8291 decoder applied with that private key and auth secret to
the frame produced by `encryptPayload` recovers exactly the UTF-8 bytes
of the plaintext. -/
theorem encryptPayload_roundtrip (P : WebCryptoPrims) (eph subPriv : P.Priv)
    (salt : List Nat) (plaintext : String) (sub : PushSubscription)
    (auth frame : List Nat)
    (hpk : base64UrlToArrayBuffer sub.keys.p256dh = some (P.pubBytes subPriv))
    (ha : base64UrlToArrayBuffer sub.keys.auth = some auth)
    (_hauth : auth.length = 16)
    (hsalt : salt.length = 16)
    (hok : encryptPayload P eph salt plaintext sub = .ok frame) :
    rfc8291Decrypt P subPriv auth frame = some (utf8Bytes plaintext) := by
  have he := encryptPayload_ok_eq P eph salt plaintext sub (P.pubBytes subPriv)
    auth hpk (P.import_pub subPriv) ha
  rw [he] at hok
  injection hok with hframe
  obtain ⟨f1, f2, f3, f4, f5, f6, f7, f8⟩ :=
    frame_parse P eph salt _ frame hsalt hframe.symm
  simp only [rfc8291Decrypt]
  rw [if_neg (by omega)]
  rw [f3, f5, show (21 + 65 : Nat) = 86 from rfl, f6, f1]
  rw [P.ecdh_comm subPriv eph]
  rw [P.aesGcm_roundtrip]
  show stripPadding (paddedPlaintext plaintext) = some (utf8Bytes plaintext)
  rw [paddedPlaintext, stripPadding_padded]

theorem encryptPayload_roundtrip_witness :
    rfc8291Decrypt trivPrims ((1 : Nat) : trivPrims.Priv) authA frameA =
      some (utf8Bytes "hi") :=
  encryptPayload_roundtrip trivPrims ((2 : Nat) : trivPrims.Priv)
    ((1 : Nat) : trivPrims.Priv) saltA "hi" subA authA frameA rfl rfl rfl rfl
    rfl
